import Mathlib

/-!
# Verification of the validated UUID component

A shallow embedding of the Go package `uuid` (files `validated_uuid.go` and
`helpers.go`).  The package wraps a raw 128-bit UUID from an external
primitive library and forbids the all-zero value; every conversion path
revalidates.

Go's `(T, error)` multiple-return style is embedded as `T × Option UUIDError`
(`none` = nil error, success).  Error values carry the discriminating kind;
the `fmt.Errorf` context strings wrapped around them with `%w` preserve the
kind, so the kinds are what the embedding keeps.

The external raw-UUID primitive (`github.com/google/uuid`) is not part of
this repository; it is modelled from the spec's collaborator contract:
`parse(text) -> Raw | Error`, `format(raw) -> string` producing the canonical
36-character hyphenated lowercase hexadecimal form, a distinguished all-zero
constant, and bitwise equality.  A raw value is carried as its 32 hexadecimal
nibbles.
-/

namespace Uuid

/-- Modelled from the spec: the external primitive's raw 128-bit UUID value,
carried as its 32 hexadecimal nibbles (most significant first). -/
structure GUUID where
  nibbles : List Nat
deriving DecidableEq, Repr

/-- The primitive's distinguished all-zero constant (`uuid.Nil`). -/
def gUuidNil : GUUID := ⟨List.replicate 32 0⟩

/-- Well-formedness of a raw value: exactly 32 nibbles, each below 16. -/
def GUUID.WF (r : GUUID) : Prop :=
  r.nibbles.length = 32 ∧ ∀ n ∈ r.nibbles, n < 16

instance (r : GUUID) : Decidable r.WF := by
  unfold GUUID.WF; infer_instance

/-- Value of one hexadecimal digit character; the primitive's parser accepts
both lowercase and uppercase digits. -/
def hexVal (c : Char) : Option Nat :=
  if '0' ≤ c ∧ c ≤ '9' then some (c.toNat - 48)
  else if 'a' ≤ c ∧ c ≤ 'f' then some (c.toNat - 87)
  else if 'A' ≤ c ∧ c ≤ 'F' then some (c.toNat - 55)
  else none

/-- Lowercase hexadecimal digit character of a nibble. -/
def hexChar (n : Nat) : Char :=
  if n < 10 then Char.ofNat (48 + n) else Char.ofNat (87 + n)

/-- Consume exactly `n` hexadecimal digit characters. -/
def takeHexN : Nat → List Char → Option (List Nat × List Char)
  | 0, cs => some ([], cs)
  | _ + 1, [] => none
  | n + 1, c :: cs =>
    match hexVal c with
    | none => none
    | some v =>
      match takeHexN n cs with
      | none => none
      | some (vs, rest) => some (v :: vs, rest)

/-- Consume one hyphen. -/
def expectDash : List Char → Option (List Char)
  | '-' :: cs => some cs
  | _ => none

/-- Modelled from the spec: the primitive's canonical-form parser, reading the
8-4-4-4-12 hyphenated hexadecimal layout into 32 nibbles. -/
def uuidParseChars (cs : List Char) : Option (List Nat) :=
  (takeHexN 8 cs).bind fun p1 =>
  (expectDash p1.2).bind fun r1 =>
  (takeHexN 4 r1).bind fun p2 =>
  (expectDash p2.2).bind fun r2 =>
  (takeHexN 4 r2).bind fun p3 =>
  (expectDash p3.2).bind fun r3 =>
  (takeHexN 4 r3).bind fun p4 =>
  (expectDash p4.2).bind fun r4 =>
  (takeHexN 12 r4).bind fun p5 =>
  if p5.2 = [] then some (p1.1 ++ p2.1 ++ p3.1 ++ p4.1 ++ p5.1) else none

/-- Modelled from the spec: `uuid.Parse`, the primitive's text parser. -/
def gUuidParse (s : String) : Option GUUID :=
  (uuidParseChars s.data).map GUUID.mk

/-- Modelled from the spec: the canonical 36-character hyphenated lowercase
rendering of 32 nibbles. -/
def uuidFormatChars (ns : List Nat) : List Char :=
  (ns.take 8).map hexChar ++ '-' ::
    (((ns.drop 8).take 4).map hexChar ++ '-' ::
      (((ns.drop 12).take 4).map hexChar ++ '-' ::
        (((ns.drop 16).take 4).map hexChar ++ '-' ::
          (ns.drop 20).map hexChar)))

/-- Modelled from the spec: `uuid.UUID.String()`, the canonical rendering. -/
def GUUID.toText (r : GUUID) : String :=
  String.mk (uuidFormatChars r.nibbles)

/-- The error kinds this component produces (the discriminating content of
its `error` values). -/
inductive UUIDError
  | emptyInput
  | malformedText
  | zeroValue
  | nilMessage
  | nilColumn
  | unsupportedColumnType
  | jsonDecodeError
deriving DecidableEq, Repr

/-- Go `ValidatedUUID` wraps the primitive's raw value (Go: an embedded
`uuid.UUID` field). -/
structure ValidatedUUID where
  UUID : GUUID
deriving DecidableEq, Repr

/-- Go `New`: wraps the external generator's output.  The generator itself is
out of scope; its output is passed explicitly, and the spec's collaborator
contract guarantees it is never the zero value. -/
def New (gen : GUUID) : ValidatedUUID := ⟨gen⟩

/-- Go `Parse` parses a string into a `ValidatedUUID` with validation. -/
def Parse (s : String) : ValidatedUUID × Option UUIDError :=
  if s = "" then (⟨gUuidNil⟩, some .emptyInput)
  else
    match gUuidParse s with
    | none => (⟨gUuidNil⟩, some .malformedText)
    | some parsed =>
      if parsed = gUuidNil then (⟨gUuidNil⟩, some .zeroValue)
      else (⟨parsed⟩, none)

/-- Go `MustParse` panics on error; the panic is embedded as `none`. -/
def MustParse (s : String) : Option ValidatedUUID :=
  match Parse s with
  | (u, none) => some u
  | (_, some _) => none

/-- Go `FromGoogleUUID` converts a raw primitive value to `ValidatedUUID`. -/
def FromGoogleUUID (u : GUUID) : ValidatedUUID × Option UUIDError :=
  if u = gUuidNil then (⟨gUuidNil⟩, some .zeroValue)
  else (⟨u⟩, none)

/-- Go `IsZero` returns true if the UUID is the zero value. -/
def ValidatedUUID.IsZero (u : ValidatedUUID) : Bool :=
  decide (u.UUID = gUuidNil)

/-- Go `Validate` ensures the UUID is not zero. -/
def ValidatedUUID.Validate (u : ValidatedUUID) : Option UUIDError :=
  if u.UUID = gUuidNil then some .zeroValue else none

/-- Go `String()`: the canonical text of the wrapped raw value (unchecked). -/
def ValidatedUUID.toString (u : ValidatedUUID) : String :=
  u.UUID.toText

/-- Modelled from the spec: what the external JSON layer (`encoding/json`)
hands this component.  A byte payload is either a well-formed JSON string
scalar carrying some string, well-formed JSON that is not a string scalar,
or structurally malformed JSON. -/
inductive JSONData
  | strScalar (s : String)
  | nonStringJSON
  | malformedJSON
deriving DecidableEq, Repr

/-- Modelled from the spec: `json.Unmarshal(data, &s)` into a string — it
succeeds exactly when the payload is a JSON string scalar. -/
def jsonUnmarshalString : JSONData → Option String
  | .strScalar s => some s
  | _ => none

/-- Go `MarshalJSON`: validates, then emits the canonical text as a JSON string
scalar (Go returns `(nil, err)` on failure). -/
def ValidatedUUID.MarshalJSON (u : ValidatedUUID) : Option JSONData × Option UUIDError :=
  match u.Validate with
  | some e => (none, some e)
  | none => (some (.strScalar u.toString), none)

/-- Go `UnmarshalJSON`: reads a string scalar, delegates to `Parse`, and
overwrites the receiver only on success.  The pointer receiver is embedded
by explicit state passing: the result pairs the returned error with the
receiver's final state. -/
def UnmarshalJSON (u : ValidatedUUID) (data : JSONData) : Option UUIDError × ValidatedUUID :=
  match jsonUnmarshalString data with
  | none => (some .jsonDecodeError, u)
  | some s =>
    match Parse s with
    | (parsed, none) => (none, parsed)
    | (_, some e) => (some e, u)

/-- Modelled from the spec: an empty-interface runtime value reaching the
storage column protocol — a text value, a byte sequence
(carried as the text it converts to; the byte-to-text conversion is the
language's), nil, or a value of any other runtime type. -/
inductive DriverValue
  | strVal (s : String)
  | bytesVal (s : String)
  | nullVal
  | otherVal
deriving DecidableEq, Repr

/-- Go `Value`: validates, then yields the canonical text as the column value
(Go returns `(nil, err)` on failure). -/
def ValidatedUUID.Value (u : ValidatedUUID) : Option DriverValue × Option UUIDError :=
  match u.Validate with
  | some e => (none, some e)
  | none => (some (.strVal u.toString), none)

/-- The tail of `Scan` after the type switch has produced a string: delegate
to `Parse`, overwrite only on success. -/
def scanParse (u : ValidatedUUID) (s : String) : Option UUIDError × ValidatedUUID :=
  match Parse s with
  | (parsed, none) => (none, parsed)
  | (_, some e) => (some e, u)

/-- Go `Scan`: rejects nil, converts a string or byte-sequence column value to
text and delegates to `Parse`, rejects any other runtime type.  State
passing as in `UnmarshalJSON`. -/
def Scan (u : ValidatedUUID) (value : DriverValue) : Option UUIDError × ValidatedUUID :=
  match value with
  | .nullVal => (some .nilColumn, u)
  | .strVal s => scanParse u s
  | .bytesVal s => scanParse u s
  | .otherVal => (some .unsupportedColumnType, u)

/-- The structured interchange message (generated protobuf type `UUID` with
its single string field `Val`); a Go pointer to it is `Option UUIDMsg`. -/
structure UUIDMsg where
  Val : String
deriving DecidableEq, Repr

/-- Go `GetVal`: the generated getter, returning "" on a nil receiver. -/
def getVal : Option UUIDMsg → String
  | none => ""
  | some m => m.Val

/-- Go `ToProto`: validates, then builds the message carrying the canonical
text (Go returns `(nil, err)` on failure). -/
def ValidatedUUID.ToProto (u : ValidatedUUID) : Option UUIDMsg × Option UUIDError :=
  match u.Validate with
  | some e => (none, some e)
  | none => (some ⟨u.toString⟩, none)

/-- Go `FromProto`: rejects a nil message, then parses its field. -/
def FromProto (pb : Option UUIDMsg) : ValidatedUUID × Option UUIDError :=
  match pb with
  | none => (⟨gUuidNil⟩, some .nilMessage)
  | some m => Parse m.Val

/-- The generic wrapped-string message (`wrapperspb.StringValue`); a Go
pointer to it is `Option StringValue`. -/
structure StringValue where
  value : String
deriving DecidableEq, Repr

/-- Go `ToStringValue`: validates, then wraps the canonical text. -/
def ValidatedUUID.ToStringValue (u : ValidatedUUID) : Option StringValue × Option UUIDError :=
  match u.Validate with
  | some e => (none, some e)
  | none => (some ⟨u.toString⟩, none)

/-- Go `FromStringValue`: rejects a nil message, then parses the wrapped
string. -/
def FromStringValue (sv : Option StringValue) : ValidatedUUID × Option UUIDError :=
  match sv with
  | none => (⟨gUuidNil⟩, some .nilMessage)
  | some w => Parse w.value

/-- Go `StringToProto` (helpers.go): `Parse`, then `ToProto`. -/
def StringToProto (s : String) : Option UUIDMsg × Option UUIDError :=
  match Parse s with
  | (_, some e) => (none, some e)
  | (validated, none) => validated.ToProto

/-- Go `ProtoToString` (helpers.go): `FromProto`, then `String()` (Go returns
`("", err)` on failure). -/
def ProtoToString (pb : Option UUIDMsg) : String × Option UUIDError :=
  match FromProto pb with
  | (_, some e) => ("", some e)
  | (validated, none) => (validated.toString, none)

/-- Go `ValidateProtoUUID` (helpers.go): nil check, then `Parse` of the field,
discarding the parsed value. -/
def ValidateProtoUUID (pb : Option UUIDMsg) : Option UUIDError :=
  match pb with
  | none => some .nilMessage
  | some m => (Parse m.Val).2

/-- Go `ValidateStringUUID` (helpers.go): `Parse`, discarding the parsed
value. -/
def ValidateStringUUID (s : String) : Option UUIDError :=
  (Parse s).2

/-! ## Round-trip facts about the primitive's canonical form -/

theorem hexVal_hexChar (n : Nat) (h : n < 16) : hexVal (hexChar n) = some n := by
  interval_cases n <;> decide

theorem takeHexN_append (ns : List Nat) (rest : List Char) (h : ∀ n ∈ ns, n < 16) :
    takeHexN ns.length (ns.map hexChar ++ rest) = some (ns, rest) := by
  induction ns with
  | nil => rfl
  | cons a t ih =>
    have ha : a < 16 := h a (List.mem_cons_self a t)
    have ht : ∀ n ∈ t, n < 16 := fun n hn => h n (List.mem_cons_of_mem a hn)
    have ih2 : takeHexN t.length ((List.map hexChar t).append rest) = some (t, rest) :=
      ih ht
    simp only [List.map_cons, List.cons_append, List.length_cons, takeHexN,
      hexVal_hexChar a ha]
    rw [ih2]

theorem uuidParseChars_groups (a b c d e : List Nat)
    (ha : a.length = 8) (hb : b.length = 4) (hc : c.length = 4)
    (hd : d.length = 4) (he : e.length = 12)
    (hma : ∀ n ∈ a, n < 16) (hmb : ∀ n ∈ b, n < 16) (hmc : ∀ n ∈ c, n < 16)
    (hmd : ∀ n ∈ d, n < 16) (hme : ∀ n ∈ e, n < 16) :
    uuidParseChars
      (a.map hexChar ++ '-' ::
        (b.map hexChar ++ '-' ::
          (c.map hexChar ++ '-' ::
            (d.map hexChar ++ '-' :: e.map hexChar)))) =
      some (a ++ (b ++ (c ++ (d ++ e)))) := by
  have hA := takeHexN_append a ('-' ::
    (b.map hexChar ++ '-' ::
      (c.map hexChar ++ '-' ::
        (d.map hexChar ++ '-' :: e.map hexChar)))) hma
  rw [ha] at hA
  have hB := takeHexN_append b ('-' ::
    (c.map hexChar ++ '-' ::
      (d.map hexChar ++ '-' :: e.map hexChar))) hmb
  rw [hb] at hB
  have hC := takeHexN_append c ('-' ::
    (d.map hexChar ++ '-' :: e.map hexChar)) hmc
  rw [hc] at hC
  have hD := takeHexN_append d ('-' :: e.map hexChar) hmd
  rw [hd] at hD
  have hE := takeHexN_append e [] hme
  rw [he] at hE
  rw [List.append_nil] at hE
  simp only [uuidParseChars, hA, Option.some_bind, expectDash, hB, hC, hD, hE,
    List.append_assoc]
  simp

theorem uuidParseChars_format (ns : List Nat) (hlen : ns.length = 32)
    (hlt : ∀ n ∈ ns, n < 16) :
    uuidParseChars (uuidFormatChars ns) = some ns := by
  have hde : (ns.drop 16).drop 4 = ns.drop 20 := by
    rw [List.drop_drop]
  have hdd : (ns.drop 12).drop 4 = ns.drop 16 := by
    rw [List.drop_drop]
  have hdc : (ns.drop 8).drop 4 = ns.drop 12 := by
    rw [List.drop_drop]
  have key := uuidParseChars_groups (ns.take 8) ((ns.drop 8).take 4)
    ((ns.drop 12).take 4) ((ns.drop 16).take 4) (ns.drop 20)
    (by simp [List.length_take, hlen])
    (by simp [List.length_take, List.length_drop, hlen])
    (by simp [List.length_take, List.length_drop, hlen])
    (by simp [List.length_take, List.length_drop, hlen])
    (by simp [List.length_drop, hlen])
    (fun n hn => hlt n (List.take_subset _ _ hn))
    (fun n hn => hlt n (List.drop_subset _ _ (List.take_subset _ _ hn)))
    (fun n hn => hlt n (List.drop_subset _ _ (List.take_subset _ _ hn)))
    (fun n hn => hlt n (List.drop_subset _ _ (List.take_subset _ _ hn)))
    (fun n hn => hlt n (List.drop_subset _ _ hn))
  have hjoin : ns.take 8 ++ ((ns.drop 8).take 4 ++ ((ns.drop 12).take 4 ++
      ((ns.drop 16).take 4 ++ ns.drop 20))) = ns := by
    rw [← hde, List.take_append_drop, ← hdd, List.take_append_drop,
      ← hdc, List.take_append_drop, List.take_append_drop]
  rw [uuidFormatChars]
  rw [key, hjoin]

theorem gUuidParse_toText (r : GUUID) (hwf : r.WF) : gUuidParse r.toText = some r := by
  obtain ⟨hlen, hlt⟩ := hwf
  show (uuidParseChars (uuidFormatChars r.nibbles)).map GUUID.mk = some r
  rw [uuidParseChars_format r.nibbles hlen hlt]
  rfl

theorem toText_ne_empty (r : GUUID) : r.toText ≠ "" := by
  intro h
  have h2 : (uuidFormatChars r.nibbles) = [] := congrArg String.data h
  simp [uuidFormatChars] at h2

/-- Successful parse of the canonical text of a well-formed non-zero raw
value, recovering that value exactly. -/
theorem Parse_toText (r : GUUID) (hwf : r.WF) (hnz : r ≠ gUuidNil) :
    Parse r.toText = (⟨r⟩, none) := by
  rw [Parse, if_neg (toText_ne_empty r), gUuidParse_toText r hwf]
  simp [hnz]

/-- Case analysis on `Parse`: its four possible outcomes. -/
theorem Parse_spec (s : String) :
    Parse s = (⟨gUuidNil⟩, some .emptyInput) ∨
    Parse s = (⟨gUuidNil⟩, some .malformedText) ∨
    (gUuidParse s = some gUuidNil ∧ Parse s = (⟨gUuidNil⟩, some .zeroValue)) ∨
    (∃ r, gUuidParse s = some r ∧ r ≠ gUuidNil ∧ Parse s = (⟨r⟩, none)) := by
  unfold Parse
  split
  · exact Or.inl rfl
  · split
    · exact Or.inr (Or.inl rfl)
    · next r heq =>
      split
      · next hz =>
        exact Or.inr (Or.inr (Or.inl ⟨hz ▸ heq, rfl⟩))
      · next hz =>
        exact Or.inr (Or.inr (Or.inr ⟨r, heq, hz, rfl⟩))

/-- On success, `Parse` returns a non-zero value. -/
theorem Parse_none_nonzero (s : String) (h : (Parse s).2 = none) :
    (Parse s).1.IsZero = false := by
  rcases Parse_spec s with h1 | h1 | ⟨_, h1⟩ | ⟨r, _, hnz, h1⟩ <;>
    simp_all [ValidatedUUID.IsZero]

/-- On failure, `Parse` returns the zero value alongside the error. -/
theorem Parse_some_zero (s : String) (e : UUIDError) (h : (Parse s).2 = some e) :
    (Parse s).1 = ⟨gUuidNil⟩ := by
  rcases Parse_spec s with h1 | h1 | ⟨_, h1⟩ | ⟨r, _, hnz, h1⟩ <;>
    simp_all

/-- A non-zero instance validates successfully. -/
theorem Validate_of_not_isZero (v : ValidatedUUID) (h : v.IsZero = false) :
    v.Validate = none := by
  simp only [ValidatedUUID.IsZero, decide_eq_false_iff_not] at h
  simp [ValidatedUUID.Validate, h]

/-- The shared parse-and-overwrite tail: either `Parse` succeeded and the
parsed value replaces the state, or it failed and the state is untouched. -/
theorem scanParse_spec (u : ValidatedUUID) (s : String) :
    ((Parse s).2 = none ∧ scanParse u s = (none, (Parse s).1)) ∨
    (∃ e, (Parse s).2 = some e ∧ scanParse u s = (some e, u)) := by
  rcases hp : Parse s with ⟨v, e⟩
  cases e with
  | none => exact Or.inl ⟨rfl, by unfold scanParse; rw [hp]⟩
  | some e => exact Or.inr ⟨e, rfl, by unfold scanParse; rw [hp]⟩

/-- On a JSON string scalar, `UnmarshalJSON` runs exactly the shared
parse-and-overwrite tail. -/
theorem unmarshalJSON_strScalar (u : ValidatedUUID) (s : String) :
    UnmarshalJSON u (.strScalar s) = scanParse u s :=
  rfl

/-- A concrete well-formed, non-zero raw value used by the witnesses. -/
def sampleRaw : GUUID :=
  ⟨[0, 1, 2, 3, 4, 5, 6, 7, 8, 9, 10, 11, 12, 13, 14, 15,
    15, 14, 13, 12, 11, 10, 9, 8, 7, 6, 5, 4, 3, 2, 1, 0]⟩

/-- A concrete valid instance used by the witnesses. -/
def sampleV : ValidatedUUID := ⟨sampleRaw⟩

/-! ## The claims -/

/-- C1: Non-zero invariant.  Every `ValidatedUUID` successfully produced by a
public constructor (`New` with the generator's contractually non-zero output,
`Parse`, `MustParse`, `FromGoogleUUID`, `FromProto`, `FromStringValue`) or
successfully written in place by a decode entry point (`UnmarshalJSON`,
`Scan`) satisfies `IsZero = false`; in particular the generated value is
never zero. -/
theorem claim1_nonzero_invariant :
    (∀ gen : GUUID, gen ≠ gUuidNil → (New gen).IsZero = false)
    ∧ (∀ s, (Parse s).2 = none → (Parse s).1.IsZero = false)
    ∧ (∀ s v, MustParse s = some v → v.IsZero = false)
    ∧ (∀ g, (FromGoogleUUID g).2 = none → (FromGoogleUUID g).1.IsZero = false)
    ∧ (∀ pb, (FromProto pb).2 = none → (FromProto pb).1.IsZero = false)
    ∧ (∀ sv, (FromStringValue sv).2 = none → (FromStringValue sv).1.IsZero = false)
    ∧ (∀ u data, (UnmarshalJSON u data).1 = none → (UnmarshalJSON u data).2.IsZero = false)
    ∧ (∀ u val, (Scan u val).1 = none → (Scan u val).2.IsZero = false) := by
  have hscan : ∀ u s, (scanParse u s).1 = none → (scanParse u s).2.IsZero = false := by
    intro u s h
    unfold scanParse at h ⊢
    rcases hp : Parse s with ⟨v, e⟩
    cases e with
    | none =>
      have := Parse_none_nonzero s (by rw [hp])
      rw [hp] at this
      simp [hp, this]
    | some e => simp [hp] at h
  refine ⟨?_, ?_, ?_, ?_, ?_, ?_, ?_, ?_⟩
  · intro gen hnz
    simp [New, ValidatedUUID.IsZero, hnz]
  · exact Parse_none_nonzero
  · intro s v h
    unfold MustParse at h
    rcases hp : Parse s with ⟨w, e⟩
    cases e with
    | none =>
      have := Parse_none_nonzero s (by rw [hp])
      rw [hp] at this h
      simp at h
      rw [← h]
      simpa using this
    | some e => rw [hp] at h; simp at h
  · intro g h
    unfold FromGoogleUUID at h ⊢
    split at h
    · simp at h
    · next hnz => simp [ValidatedUUID.IsZero, hnz]
  · intro pb h
    cases pb with
    | none => simp [FromProto] at h
    | some m =>
      have := Parse_none_nonzero m.Val (by simpa [FromProto] using h)
      simpa [FromProto] using this
  · intro sv h
    cases sv with
    | none => simp [FromStringValue] at h
    | some w =>
      have := Parse_none_nonzero w.value (by simpa [FromStringValue] using h)
      simpa [FromStringValue] using this
  · intro u data h
    cases data with
    | strScalar s =>
      unfold UnmarshalJSON jsonUnmarshalString at h ⊢
      rcases hp : Parse s with ⟨v, e⟩
      cases e with
      | none =>
        have := Parse_none_nonzero s (by rw [hp])
        rw [hp] at this
        simp [hp, this]
      | some e => simp [hp] at h
    | nonStringJSON => simp [UnmarshalJSON, jsonUnmarshalString] at h
    | malformedJSON => simp [UnmarshalJSON, jsonUnmarshalString] at h
  · intro u val h
    cases val with
    | strVal s => exact hscan u s h
    | bytesVal s => exact hscan u s h
    | nullVal => simp [Scan] at h
    | otherVal => simp [Scan] at h

/-- C2: Rejection completeness and error discrimination of `Parse`.  The
empty string fails with the empty-input kind (distinguishable from a generic
parse failure), text the primitive parser rejects fails with the
malformed-text kind, text parsing to the all-zero value fails with the
zero-value kind, and those three are the only failure modes. -/
theorem claim2_parse_rejection :
    Parse "" = (⟨gUuidNil⟩, some .emptyInput)
    ∧ Parse "not-a-uuid" = (⟨gUuidNil⟩, some .malformedText)
    ∧ Parse "00000000-0000-0000-0000-000000000000" = (⟨gUuidNil⟩, some .zeroValue)
    ∧ (∀ s, (Parse s).2 = none
        ∨ (Parse s).2 = some .emptyInput
        ∨ (Parse s).2 = some .malformedText
        ∨ (Parse s).2 = some .zeroValue) := by
  refine ⟨by decide, by decide, by decide, ?_⟩
  intro s
  rcases Parse_spec s with h1 | h1 | ⟨_, h1⟩ | ⟨r, _, _, h1⟩ <;> rw [h1] <;> simp

/-- C10 (implicit): whenever a value-returning constructor fails — `Parse`,
`FromGoogleUUID`, `FromProto`, `FromStringValue` — the `ValidatedUUID`
returned alongside the error is the all-zero default value, never a
partially constructed one. -/
theorem claim10_zero_on_error :
    (∀ s e, (Parse s).2 = some e → (Parse s).1.IsZero = true)
    ∧ (∀ g e, (FromGoogleUUID g).2 = some e → (FromGoogleUUID g).1.IsZero = true)
    ∧ (∀ pb e, (FromProto pb).2 = some e → (FromProto pb).1.IsZero = true)
    ∧ (∀ sv e, (FromStringValue sv).2 = some e → (FromStringValue sv).1.IsZero = true) := by
  have hp : ∀ s e, (Parse s).2 = some e → (Parse s).1.IsZero = true := by
    intro s e h
    rw [Parse_some_zero s e h]
    simp [ValidatedUUID.IsZero, gUuidNil]
  refine ⟨hp, ?_, ?_, ?_⟩
  · intro g e h
    by_cases hz : g = gUuidNil
    · simp [FromGoogleUUID, hz, ValidatedUUID.IsZero]
    · simp [FromGoogleUUID, hz] at h
  · intro pb e h
    cases pb with
    | none => simp [FromProto, ValidatedUUID.IsZero]
    | some m => simpa [FromProto] using hp m.Val e (by simpa [FromProto] using h)
  · intro sv e h
    cases sv with
    | none => simp [FromStringValue, ValidatedUUID.IsZero]
    | some w => simpa [FromStringValue] using hp w.value e (by simpa [FromStringValue] using h)

/-- C4: Uniform outbound validation gate.  `Validate` fails with the
zero-value kind exactly when the instance is all-zero, every outbound
conversion (`MarshalJSON`, `ToProto`, `ToStringValue`, `Value`) fails with
that kind exactly when the instance is all-zero and produces output only on
successful validation, and each conversion's error outcome is literally
`Validate`'s outcome. -/
theorem claim4_outbound_gate (u : ValidatedUUID) :
    (u.Validate = some .zeroValue ↔ u.IsZero = true)
    ∧ (u.Validate = none ↔ u.IsZero = false)
    ∧ u.MarshalJSON = (if u.IsZero then (none, some .zeroValue)
        else (some (.strScalar u.toString), none))
    ∧ u.ToProto = (if u.IsZero then (none, some .zeroValue)
        else (some ⟨u.toString⟩, none))
    ∧ u.ToStringValue = (if u.IsZero then (none, some .zeroValue)
        else (some ⟨u.toString⟩, none))
    ∧ u.Value = (if u.IsZero then (none, some .zeroValue)
        else (some (.strVal u.toString), none))
    ∧ u.MarshalJSON.2 = u.Validate
    ∧ u.ToProto.2 = u.Validate
    ∧ u.ToStringValue.2 = u.Validate
    ∧ u.Value.2 = u.Validate := by
  by_cases hz : u.UUID = gUuidNil <;>
    simp [ValidatedUUID.IsZero, ValidatedUUID.Validate, ValidatedUUID.MarshalJSON,
      ValidatedUUID.ToProto, ValidatedUUID.ToStringValue, ValidatedUUID.Value, hz]

/-- C5: In-place decode atomicity.  Whenever `UnmarshalJSON` or `Scan`
fails, the destination instance keeps exactly its previous state; it is
overwritten only when validation succeeds (the new state validates). -/
theorem claim5_decode_atomicity :
    (∀ u data e, (UnmarshalJSON u data).1 = some e → (UnmarshalJSON u data).2 = u)
    ∧ (∀ u val e, (Scan u val).1 = some e → (Scan u val).2 = u)
    ∧ (∀ u data, (UnmarshalJSON u data).1 = none → (UnmarshalJSON u data).2.Validate = none)
    ∧ (∀ u val, (Scan u val).1 = none → (Scan u val).2.Validate = none) := by
  have hfail : ∀ u s e, (scanParse u s).1 = some e → (scanParse u s).2 = u := by
    intro u s e h
    rcases scanParse_spec u s with ⟨_, h1⟩ | ⟨e2, _, h1⟩
    · rw [h1] at h; simp at h
    · rw [h1]
  have hok : ∀ u s, (scanParse u s).1 = none → (scanParse u s).2.Validate = none := by
    intro u s h
    rcases scanParse_spec u s with ⟨hp, h1⟩ | ⟨e2, _, h1⟩
    · rw [h1]
      exact Validate_of_not_isZero _ (Parse_none_nonzero s hp)
    · rw [h1] at h; simp at h
  refine ⟨?_, ?_, ?_, ?_⟩
  · intro u data e h
    cases data with
    | strScalar s => rw [unmarshalJSON_strScalar] at h ⊢; exact hfail u s e h
    | nonStringJSON => rfl
    | malformedJSON => rfl
  · intro u val e h
    cases val with
    | strVal s => exact hfail u s e h
    | bytesVal s => exact hfail u s e h
    | nullVal => rfl
    | otherVal => rfl
  · intro u data h
    cases data with
    | strScalar s => rw [unmarshalJSON_strScalar] at h ⊢; exact hok u s h
    | nonStringJSON => simp [UnmarshalJSON, jsonUnmarshalString] at h
    | malformedJSON => simp [UnmarshalJSON, jsonUnmarshalString] at h
  · intro u val h
    cases val with
    | strVal s => exact hok u s h
    | bytesVal s => exact hok u s h
    | nullVal => simp [Scan] at h
    | otherVal => simp [Scan] at h

/-- C7: Storage column symmetry and type handling.  `Value` on a valid
instance yields exactly its canonical text; `Scan` of a string or byte
sequence runs the shared parse tail (so scanning a valid instance's own
canonical text yields an equal instance); `Scan` of nil fails; `Scan` of any
other runtime type fails with the unsupported-column-type kind. -/
theorem claim7_storage_column (v : ValidatedUUID) (hwf : v.UUID.WF)
    (hnz : v.IsZero = false) :
    v.Value = (some (.strVal v.toString), none)
    ∧ (∀ u s, Scan u (.strVal s) = scanParse u s ∧ Scan u (.bytesVal s) = scanParse u s
        ∧ ((Parse s).2 = none → scanParse u s = (none, (Parse s).1))
        ∧ (∀ e, (Parse s).2 = some e → scanParse u s = (some e, u)))
    ∧ (∀ u, Scan u (.strVal v.toString) = (none, v))
    ∧ (∀ u, Scan u .nullVal = (some .nilColumn, u))
    ∧ (∀ u, Scan u .otherVal = (some .unsupportedColumnType, u)) := by
  have hz : v.UUID ≠ gUuidNil := by
    simpa [ValidatedUUID.IsZero] using hnz
  have hparse : Parse v.toString = (v, none) := Parse_toText v.UUID hwf hz
  refine ⟨?_, ?_, ?_, fun u => rfl, fun u => rfl⟩
  · simp [ValidatedUUID.Value, ValidatedUUID.Validate, hz]
  · intro u s
    refine ⟨rfl, rfl, ?_, ?_⟩
    · intro h
      rcases scanParse_spec u s with ⟨_, h1⟩ | ⟨e2, h2, _⟩
      · exact h1
      · rw [h] at h2; exact absurd h2 (by simp)
    · intro e h
      rcases scanParse_spec u s with ⟨h2, _⟩ | ⟨e2, h2, h1⟩
      · rw [h] at h2; exact absurd h2 (by simp)
      · rw [h] at h2
        cases h2
        exact h1
  · intro u
    show scanParse u v.toString = (none, v)
    unfold scanParse
    rw [hparse]

/-- C8: JSON notation-layer gating.  `UnmarshalJSON` on a string scalar runs
exactly `Parse` (overwriting only on success); a non-string scalar or
structurally malformed payload fails at the notation layer, with the
notation-layer error kind and the state untouched, before this component's
parse is reached. -/
theorem claim8_json_gating :
    (∀ u s, ((Parse s).2 = none → UnmarshalJSON u (.strScalar s) = (none, (Parse s).1))
        ∧ (∀ e, (Parse s).2 = some e → UnmarshalJSON u (.strScalar s) = (some e, u)))
    ∧ (∀ u, UnmarshalJSON u .nonStringJSON = (some .jsonDecodeError, u))
    ∧ (∀ u, UnmarshalJSON u .malformedJSON = (some .jsonDecodeError, u)) := by
  refine ⟨?_, fun u => rfl, fun u => rfl⟩
  intro u s
  rw [unmarshalJSON_strScalar]
  constructor
  · intro h
    rcases scanParse_spec u s with ⟨_, h1⟩ | ⟨e2, h2, _⟩
    · exact h1
    · rw [h] at h2; exact absurd h2 (by simp)
  · intro e h
    rcases scanParse_spec u s with ⟨h2, _⟩ | ⟨e2, h2, h1⟩
    · rw [h] at h2; exact absurd h2 (by simp)
    · rw [h] at h2
      cases h2
      exact h1

/-- C3: Text round-trip.  For every valid canonical UUID text — the
canonical hyphenated lowercase rendering of a well-formed, non-zero raw
value — `Parse` succeeds and the result's `String()` equals the input
exactly. -/
theorem claim3_text_roundtrip (r : GUUID) (hwf : r.WF) (hnz : r ≠ gUuidNil) :
    Parse r.toText = (⟨r⟩, none)
    ∧ (ValidatedUUID.mk r).toString = r.toText :=
  ⟨Parse_toText r hwf hnz, rfl⟩

/-- Witness for C3 at a concrete canonical text. -/
theorem claim3_witness :
    Parse sampleRaw.toText = (⟨sampleRaw⟩, none)
    ∧ (ValidatedUUID.mk sampleRaw).toString = sampleRaw.toText :=
  claim3_text_roundtrip sampleRaw (by decide) (by decide)

/-- C6: Structured-message round-trip.  For every valid (well-formed,
non-zero) instance, `ToProto` succeeds and `FromProto` of the produced
message succeeds with a textually equal instance; `FromProto` of nil fails
with the nil-message kind; `FromProto` of a message holding "invalid-uuid"
fails with the malformed-text kind. -/
theorem claim6_proto_roundtrip (v : ValidatedUUID) (hwf : v.UUID.WF)
    (hnz : v.IsZero = false) :
    (∃ pb w, v.ToProto = (some pb, none) ∧ FromProto (some pb) = (w, none)
      ∧ w.toString = v.toString)
    ∧ FromProto none = (⟨gUuidNil⟩, some .nilMessage)
    ∧ (FromProto (some ⟨"invalid-uuid"⟩)).2 = some .malformedText := by
  have hz : v.UUID ≠ gUuidNil := by
    simpa [ValidatedUUID.IsZero] using hnz
  refine ⟨⟨⟨v.toString⟩, v, ?_, ?_, rfl⟩, rfl, by decide⟩
  · simp [ValidatedUUID.ToProto, ValidatedUUID.Validate, hz]
  · exact Parse_toText v.UUID hwf hz

/-- Witness for C6 at a concrete valid instance. -/
theorem claim6_witness :
    (∃ pb w, sampleV.ToProto = (some pb, none) ∧ FromProto (some pb) = (w, none)
      ∧ w.toString = sampleV.toString)
    ∧ FromProto none = (⟨gUuidNil⟩, some .nilMessage)
    ∧ (FromProto (some ⟨"invalid-uuid"⟩)).2 = some .malformedText :=
  claim6_proto_roundtrip sampleV (by decide) (by decide)

/-- Witness for C7 at a concrete valid instance. -/
theorem claim7_witness :
    sampleV.Value = (some (.strVal sampleV.toString), none)
    ∧ (∀ u s, Scan u (.strVal s) = scanParse u s ∧ Scan u (.bytesVal s) = scanParse u s
        ∧ ((Parse s).2 = none → scanParse u s = (none, (Parse s).1))
        ∧ (∀ e, (Parse s).2 = some e → scanParse u s = (some e, u)))
    ∧ (∀ u, Scan u (.strVal sampleV.toString) = (none, sampleV))
    ∧ (∀ u, Scan u .nullVal = (some .nilColumn, u))
    ∧ (∀ u, Scan u .otherVal = (some .unsupportedColumnType, u)) :=
  claim7_storage_column sampleV (by decide) (by decide)

/-- C9: The convenience helpers are pure compositions matching `Parse`'s
outcome.  `StringToProto` behaves as `Parse` followed by `ToProto`,
`ProtoToString` as `FromProto` followed by `String()`, `ValidateStringUUID`
returns exactly `Parse`'s error outcome, and `ValidateProtoUUID` succeeds
exactly when the message is present and its field parses.  All are pure
state-free functions of their arguments by construction. -/
theorem claim9_helpers :
    (∀ s, ((Parse s).2 = none → StringToProto s = (Parse s).1.ToProto)
        ∧ (∀ e, (Parse s).2 = some e → StringToProto s = (none, some e)))
    ∧ (∀ s, ValidateStringUUID s = (Parse s).2)
    ∧ (∀ pb, ((FromProto pb).2 = none → ProtoToString pb = ((FromProto pb).1.toString, none))
        ∧ (∀ e, (FromProto pb).2 = some e → ProtoToString pb = ("", some e)))
    ∧ (∀ pb, ValidateProtoUUID pb = none ↔ pb ≠ none ∧ (Parse (getVal pb)).2 = none) := by
  refine ⟨?_, fun s => rfl, ?_, ?_⟩
  · intro s
    constructor
    · intro h
      rcases hp : Parse s with ⟨v, e⟩
      rw [hp] at h
      simp at h
      subst h
      unfold StringToProto
      rw [hp]
    · intro e h
      rcases hp : Parse s with ⟨v, e2⟩
      rw [hp] at h
      simp at h
      subst h
      unfold StringToProto
      rw [hp]
  · intro pb
    constructor
    · intro h
      rcases hp : FromProto pb with ⟨v, e⟩
      rw [hp] at h
      simp at h
      subst h
      unfold ProtoToString
      rw [hp]
    · intro e h
      rcases hp : FromProto pb with ⟨v, e2⟩
      rw [hp] at h
      simp at h
      subst h
      unfold ProtoToString
      rw [hp]
  · intro pb
    cases pb with
    | none => simp [ValidateProtoUUID]
    | some m => simp [ValidateProtoUUID, getVal]

end Uuid
